import Mathlib

/-!
Verification of the Howler hit-schema core (`howler/odm/models/howler_data.py`):
enumeration semantics, the assessment-to-escalation table, the log-entry
validation rule, default policies for labels and votes, and document
serialization round-trip.
-/

namespace Howler

/-- A Howler enumeration as declared in a class body: the ordered list of
`(name, value)` member pairs, exactly as written in the source. -/
structure PyEnumSpec where
  members : List (String × String)
deriving DecidableEq

/-- Source `str(obj).upper().replace("-", "_")` — the name normalization applied by
`HowlerEnumMeta.__contains__` and `HowlerEnumMeta.__getitem__`, rendered per
character: uppercase each character, then map every hyphen to an underscore. -/
def normName (s : String) : String :=
  String.mk (s.data.map (fun c => let u := c.toUpper; if u = '-' then '_' else u))

/-- Modelled from the spec: the normalization as §4.1 words it — "uppercased
with spaces/hyphens mapped to underscores". Stated only to compare the spec's
claim with `normName`, the normalization the source actually performs. -/
def specNormName (s : String) : String :=
  String.mk (s.data.map (fun c =>
    let u := c.toUpper
    if u = '-' ∨ u = ' ' then '_' else u))

/-- The canonical (non-alias) members, in definition order: each member whose
value has not occurred earlier in the class body. Python enum iteration
(`for e in self`) yields exactly these; a later member whose value equals an
earlier one's is an alias and is skipped. -/
def canonicalMembers (E : PyEnumSpec) : List (String × String) :=
  go E.members []
where
  go : List (String × String) → List String → List (String × String)
    | [], _ => []
    | p :: rest, seen =>
        if seen.contains p.2 then go rest seen
        else p :: go rest (p.2 :: seen)

/-- Source `HowlerEnumMeta.__contains__`: the token, uppercased with hyphens
mapped to underscores, is some member's name, or the token itself is some
member's value — where the name and value lists are built by `for e in self`,
which iterates canonical members only, so alias names and values are
excluded. -/
def enumContains (E : PyEnumSpec) (obj : String) : Bool :=
  ((canonicalMembers E).map Prod.fst).contains (normName obj)
    || ((canonicalMembers E).map Prod.snd).contains obj

/-- The canonical member for a value: Python's `Enum` treats a later member whose
value equals an earlier one's as an alias of that first (canonical) member. -/
def canonicalFor (E : PyEnumSpec) (v : String) : Option (String × String) :=
  E.members.find? (fun p => p.2 == v)

/-- Source `HowlerEnumMeta.__getitem__`: normalize the token as a name, look it up in
the member map (which contains alias names too), resolving to the canonical
member; `none` models the `KeyError` for an unknown member. -/
def enumGetitem (E : PyEnumSpec) (name : String) : Option (String × String) :=
  match E.members.find? (fun p => p.1 == normName name) with
  | some p => canonicalFor E p.2
  | none => none

/-- Source `HowlerEnum.list`: the values of the canonical members, in order. -/
def enumList (E : PyEnumSpec) : List String :=
  (canonicalMembers E).map Prod.snd

/-- Source `m.value` for the member named `name` (empty if absent); used to render the
right-hand sides `Escalation.MISS.value` etc. of `AssessmentEscalationMap`. -/
def memberValue (E : PyEnumSpec) (name : String) : String :=
  ((E.members.find? (fun p => p.1 == name)).map Prod.snd).getD ""

/-- Source `class Scrutiny(str, HowlerEnum)`. -/
def Scrutiny : PyEnumSpec :=
  ⟨[("UNSEEN", "unseen"), ("SURVEYED", "surveyed"), ("SCANNED", "scanned"),
    ("INSPECTED", "inspected"), ("INVESTIGATED", "investigated")]⟩

/-- Source `class HitStatus(str, HowlerEnum)`. -/
def HitStatus : PyEnumSpec :=
  ⟨[("OPEN", "open"), ("IN_PROGRESS", "in-progress"), ("ON_HOLD", "on-hold"),
    ("RESOLVED", "resolved")]⟩

/-- Source `class HitStatusTransition(str, HowlerEnum)`. -/
def HitStatusTransition : PyEnumSpec :=
  ⟨[("ASSIGN_TO_ME", "assign_to_me"), ("ASSIGN_TO_OTHER", "assign_to_other"),
    ("VOTE", "vote"), ("ASSESS", "assess"), ("RELEASE", "release"),
    ("START", "start"), ("PAUSE", "pause"), ("RESUME", "resume"),
    ("RE_EVALUATE", "re_evaluate"), ("PROMOTE", "promote"), ("DEMOTE", "demote")]⟩

/-- Source `class HitOperationType(str, HowlerEnum)`. -/
def HitOperationType : PyEnumSpec :=
  ⟨[("APPENDED", "appended"), ("REMOVED", "removed"), ("SET", "set")]⟩

/-- Source `class Escalation(str, HowlerEnum)`. -/
def Escalation : PyEnumSpec :=
  ⟨[("ALERT", "alert"), ("EVIDENCE", "evidence"), ("HIT", "hit"), ("MISS", "miss")]⟩

/-- Source `class Vote(str, HowlerEnum)` — note the source's misspelled member name
`BEINIGN` with value `"benign"`. -/
def Vote : PyEnumSpec :=
  ⟨[("MALICIOUS", "malicious"), ("OBSCURE", "obscure"), ("BEINIGN", "benign")]⟩

/-- Source `class Assessment(str, HowlerEnum)`. -/
def Assessment : PyEnumSpec :=
  ⟨[("AMBIGUOUS", "ambiguous"), ("SECURITY", "security"),
    ("DEVELOPMENT", "development"), ("FALSE_POSITIVE", "false-positive"),
    ("LEGITIMATE", "legitimate"), ("TRIVIAL", "trivial"), ("RECON", "recon"),
    ("ATTEMPT", "attempt"), ("COMPROMISE", "compromise"), ("MITIGATED", "mitigated")]⟩

/-- Source `class AssessmentEscalationMap(str, HowlerEnum)`: each right-hand side is
written `Escalation.<NAME>.value` in the source. -/
def AssessmentEscalationMap : PyEnumSpec :=
  ⟨[("AMBIGUOUS", memberValue Escalation "MISS"),
    ("ATTEMPT", memberValue Escalation "EVIDENCE"),
    ("COMPROMISE", memberValue Escalation "EVIDENCE"),
    ("DEVELOPMENT", memberValue Escalation "MISS"),
    ("FALSE_POSITIVE", memberValue Escalation "MISS"),
    ("LEGITIMATE", memberValue Escalation "MISS"),
    ("MITIGATED", memberValue Escalation "EVIDENCE"),
    ("RECON", memberValue Escalation "EVIDENCE"),
    ("SECURITY", memberValue Escalation "MISS"),
    ("TRIVIAL", memberValue Escalation "EVIDENCE")]⟩

/-- All enumeration types declared in the schema module. -/
def schemaEnums : List PyEnumSpec :=
  [Scrutiny, HitStatus, HitStatusTransition, HitOperationType, Escalation,
   Vote, Assessment, AssessmentEscalationMap]

/-- Source `escalation_for` (spec §4.2): look the assessment up by name in
`AssessmentEscalationMap` (via `HowlerEnumMeta.__getitem__`) and return the
member's value — the escalation value string. `none` models
`UnmappedAssessment`. -/
def escalation_for (name : String) : Option String :=
  (enumGetitem AssessmentEscalationMap name).map Prod.snd

/-- A nested key/value document value (parsed-JSON shape): the type of raw
input values and stored-document values. Numeric payloads are modelled as
integers; the schema core never computes with them, it only stores and
serializes them. -/
inductive DVal where
  | str (s : String)
  | num (n : Int)
  | bool (b : Bool)
  | null
  | list (xs : List DVal)
  | obj (fields : List (String × DVal))

/-- A raw input mapping (a Python dict), as an association list. -/
abbrev Dict := List (String × DVal)

/-- Source `data.keys()`. -/
def keysOf (d : Dict) : List String := d.map Prod.fst

/-- Outcome of running `Log.__init__` up to (and including) the log-entry
validation rule: `ok` means control reaches `super().__init__`; `typeError`
models the `TypeError` Python raises when the membership test
`"explanation" not in data` runs on `data = None`; `invalidLogEntry fields`
models the `HowlerValueError` whose message lists exactly `fields`. -/
inductive LogInitResult where
  | ok
  | typeError
  | invalidLogEntry (namedFields : Finset String)
deriving DecidableEq

/-- The set `{"key", "new_value", "type", "previous_value"}` from `Log.__init__`. -/
def required_keys : Finset String := {"key", "new_value", "type", "previous_value"}

/-- Source `Log.__init__(self, data: dict = None, ...)` up to the log-entry rule:
with `data = None` (no argument) the membership test raises `TypeError`;
otherwise, when `"explanation"` is not among the keys and
`required_keys.intersection(set(data.keys())) != required_keys`, it raises
`HowlerValueError` with a message listing the whole of `required_keys`. -/
def logInit (data : Option Dict) : LogInitResult :=
  match data with
  | none => .typeError
  | some d =>
      if (keysOf d).contains "explanation" then .ok
      else if required_keys ∩ (keysOf d).toFinset ≠ required_keys then
        .invalidLogEntry required_keys
      else .ok

deriving instance DecidableEq for Except

/-- Field-level validation failures (spec §4.3 / §7 taxonomy). -/
inductive FieldError where
  | missingRequiredField (field : String)
  | fieldTypeMismatch (field : String)
  | unknownField (field : String)
deriving DecidableEq

/-- Coerce a raw value to a string. -/
def coerceStr : DVal → Option String
  | .str s => some s
  | _ => none

/-- Coerce a raw value to a list of strings, element-wise, preserving order. -/
def coerceStrList : DVal → Option (List String)
  | .list xs => go xs
  | _ => none
where
  go : List DVal → Option (List String)
    | [] => some []
    | v :: vs => do
        let s ← coerceStr v
        let rest ← go vs
        pure (s :: rest)

/-- Modelled from the spec: the per-field rule of §4.3, whose implementing odm
framework is not under `src/` (only the declarative class bodies are). A field
absent from input with a declared default uses the default (deep-copied, which
value semantics gives for free); absent, required, without default fails
`MissingRequiredField`; present values are coerced to the declared kind,
failing `FieldTypeMismatch`. -/
def getField (d : Dict) (name : String) (dflt : Option DVal)
    (coerce : DVal → Option α) : Except FieldError α :=
  match List.lookup name d with
  | some v =>
      match coerce v with
      | some a => .ok a
      | none => .error (.fieldTypeMismatch name)
  | none =>
      match dflt with
      | some v =>
          match coerce v with
          | some a => .ok a
          | none => .error (.fieldTypeMismatch name)
      | none => .error (.missingRequiredField name)

/-- Source `class Label(odm.Model)`: eight independent lists of free-text labels. -/
structure Label where
  assignments : List String
  generic : List String
  insight : List String
  mitigation : List String
  victim : List String
  campaign : List String
  threat : List String
  operation : List String
deriving DecidableEq

/-- The eight field names declared in `Label`'s class body, in order. -/
def labelFields : List String :=
  ["assignments", "generic", "insight", "mitigation", "victim", "campaign",
   "threat", "operation"]

/-- Modelled from the spec: the §4.3 constructor at `Label`'s declared fields
(source lines 204–229: eight list-of-text fields, each `default=[]`); unknown
keys are rejected with `UnknownField` (§4.3 strictness). -/
def Label.construct (d : Dict) : Except FieldError Label :=
  match (keysOf d).find? (fun k => !(labelFields.contains k)) with
  | some k => .error (.unknownField k)
  | none => do
      let assignments ← getField d "assignments" (some (.list [])) coerceStrList
      let generic ← getField d "generic" (some (.list [])) coerceStrList
      let insight ← getField d "insight" (some (.list [])) coerceStrList
      let mitigation ← getField d "mitigation" (some (.list [])) coerceStrList
      let victim ← getField d "victim" (some (.list [])) coerceStrList
      let campaign ← getField d "campaign" (some (.list [])) coerceStrList
      let threat ← getField d "threat" (some (.list [])) coerceStrList
      let operation ← getField d "operation" (some (.list [])) coerceStrList
      pure ⟨assignments, generic, insight, mitigation, victim, campaign,
            threat, operation⟩

/-- Source `class Votes(odm.Model)`: three lists of user ids, declared in source
order `benign`, `obscure`, `malicious`. -/
structure Votes where
  benign : List String
  obscure : List String
  malicious : List String
deriving DecidableEq

/-- The three field names declared in `Votes`' class body, in order. -/
def votesFields : List String := ["benign", "obscure", "malicious"]

/-- Modelled from the spec: the §4.3 constructor at `Votes`' declared fields
(source lines 232–242: three list-of-keyword fields, each `default=[]`). -/
def Votes.construct (d : Dict) : Except FieldError Votes :=
  match (keysOf d).find? (fun k => !(votesFields.contains k)) with
  | some k => .error (.unknownField k)
  | none => do
      let benign ← getField d "benign" (some (.list [])) coerceStrList
      let obscure ← getField d "obscure" (some (.list [])) coerceStrList
      let malicious ← getField d "malicious" (some (.list [])) coerceStrList
      pure ⟨benign, obscure, malicious⟩

/-- Source `DEFAULT_VOTES = {vote: [] for vote in Vote.list()}` (source line 245). -/
def DEFAULT_VOTES : Dict := (enumList Vote).map (fun v => (v, DVal.list []))

/-- Source `DEFAULT_LABELS = {"assignments": [], "generic": []}` (source line 246). -/
def DEFAULT_LABELS : Dict := [("assignments", .list []), ("generic", .list [])]

/-- Source `DEFAULT_ASSIGNMENT = "unassigned"` (source line 247). -/
def DEFAULT_ASSIGNMENT : String := "unassigned"

/-- Modelled from the spec: resolution of the `labels` field when a Hit Record
is constructed (source lines 370–374 declare
`Optional(Compound(Label), default=DEFAULT_LABELS)`): when raw input omits the
key, the declared default raw mapping is used; either way the raw mapping is
coerced by `Label.construct`. -/
def howlerLabels (d : Dict) : Except FieldError Label :=
  match List.lookup "labels" d with
  | some (.obj o) => Label.construct o
  | some _ => .error (.fieldTypeMismatch "labels")
  | none => Label.construct DEFAULT_LABELS

/-- Modelled from the spec: resolution of the `votes` field when a Hit Record
is constructed (source lines 375–379 declare
`Optional(Compound(Votes), default=DEFAULT_VOTES)`). -/
def howlerVotes (d : Dict) : Except FieldError Votes :=
  match List.lookup "votes" d with
  | some (.obj o) => Votes.construct o
  | some _ => .error (.fieldTypeMismatch "votes")
  | none => Votes.construct DEFAULT_VOTES

/-- Source `class Link(odm.Model)`. -/
structure Link where
  href : String
  title : Option String
  icon : String

/-- Source `class Comment(odm.Model)`; `reactions` maps reaction names to users. -/
structure Comment where
  id : String
  timestamp : String
  modified : String
  value : String
  user : String
  reactions : List (String × String)

/-- The fields of `class Log(odm.Model)` (named `LogEntry` here; `logInit`
above models its `__init__` check). The `type` field stores a
`HitOperationType` value string. -/
structure LogEntry where
  timestamp : String
  key : Option String
  explanation : Option String
  previous_version : Option String
  new_value : Option String
  type : Option String
  previous_value : Option String
  user : String

/-- Source `class Header(odm.Model)`: the hit outline. -/
structure Header where
  threat : Option String
  target : Option String
  indicators : List String
  summary : Option String

/-- Source `class HowlerData(odm.Model)`: the Hit Record, fields in declaration
order. Dates, UUIDs, hashes and keywords are strings; enum-typed fields store
the canonical value string (spec §3 invariant); the float metrics' payloads
are modelled as integers (the schema core stores and serializes them, never
computes with them); `dossier` is an arbitrary nested key/value blob. -/
structure HowlerData where
  id : String
  analytic : String
  assignment : String
  bundles : List String
  data : List String
  links : List Link
  detection : Option String
  hash : String
  hits : List String
  is_bundle : Bool
  related : List String
  reliability : Option Int
  severity : Option Int
  volume : Option Int
  confidence : Option Int
  score : Int
  status : String
  scrutiny : String
  escalation : String
  assessment : Option String
  rationale : Option String
  comment : List Comment
  log : List LogEntry
  retained : Option String
  monitored : Option String
  reported : Option String
  mitigated : Option String
  outline : Option Header
  labels : Label
  votes : Votes
  dossier : Option (List (String × DVal))
  viewers : List String

/-- Is a stored value the null marker? -/
def isNull : DVal → Bool
  | .null => true
  | _ => false

/-- Serialize an optional field: an absent value is stored as null. -/
def putOpt (f : α → DVal) : Option α → DVal
  | none => .null
  | some a => f a

/-- Parse an optional field: null means absent. -/
def getOpt (f : DVal → Option α) (v : DVal) : Option (Option α) :=
  if isNull v then some none else (f v).map some

/-- Serialize a list of strings. -/
def putStrList (xs : List String) : DVal := .list (xs.map DVal.str)

/-- Parse an integer payload. -/
def getNum : DVal → Option Int
  | .num n => some n
  | _ => none

/-- Parse a boolean payload. -/
def getBoolVal : DVal → Option Bool
  | .bool b => some b
  | _ => none

/-- Parse an object payload into its field list. -/
def getObj : DVal → Option (List (String × DVal))
  | .obj o => some o
  | _ => none

/-- Serialize a string-to-string mapping as an object. -/
def putStrMap (m : List (String × String)) : DVal :=
  .obj (m.map (fun p => (p.1, DVal.str p.2)))

/-- Parse a string-to-string mapping from an object. -/
def getStrMap : DVal → Option (List (String × String))
  | .obj o => go o
  | _ => none
where
  go : List (String × DVal) → Option (List (String × String))
    | [] => some []
    | (k, v) :: rest => do
        let s ← coerceStr v
        let r ← go rest
        pure ((k, s) :: r)

/-- Parse every element of a stored list, preserving order. -/
def parseAll (f : DVal → Option α) : List DVal → Option (List α)
  | [] => some []
  | v :: vs => do
      let a ← f v
      let r ← parseAll f vs
      pure (a :: r)

/-- Parse a stored list with the given element parser. -/
def getList (f : DVal → Option α) : DVal → Option (List α)
  | .list xs => parseAll f xs
  | _ => none

/-- Look a key up among a stored object's fields. -/
def getKey (k : String) : List (String × DVal) → Option DVal
  | [] => none
  | (k', v) :: rest => if k = k' then some v else getKey k rest

/-- Modelled from the spec: serialization of a `Link` (the
`to_storable_document` pair of §6 is not under `src/`; fields are emitted
under their declared names, optionals as null when absent). -/
def Link.to_storable : Link → DVal
  | ⟨href, title, icon⟩ =>
      .obj [("href", .str href), ("title", putOpt DVal.str title),
            ("icon", .str icon)]

/-- Modelled from the spec: parse a `Link` from its stored document. -/
def Link.from_stored (v : DVal) : Option Link := do
  let o ← getObj v
  let href ← getKey "href" o >>= coerceStr
  let title ← getKey "title" o >>= getOpt coerceStr
  let icon ← getKey "icon" o >>= coerceStr
  pure ⟨href, title, icon⟩

/-- Modelled from the spec: serialization of a `Comment`. -/
def Comment.to_storable : Comment → DVal
  | ⟨id, timestamp, modified, value, user, reactions⟩ =>
      .obj [("id", .str id), ("timestamp", .str timestamp),
            ("modified", .str modified), ("value", .str value),
            ("user", .str user), ("reactions", putStrMap reactions)]

/-- Modelled from the spec: parse a `Comment` from its stored document. -/
def Comment.from_stored (v : DVal) : Option Comment := do
  let o ← getObj v
  let id ← getKey "id" o >>= coerceStr
  let timestamp ← getKey "timestamp" o >>= coerceStr
  let modified ← getKey "modified" o >>= coerceStr
  let value ← getKey "value" o >>= coerceStr
  let user ← getKey "user" o >>= coerceStr
  let reactions ← getKey "reactions" o >>= getStrMap
  pure ⟨id, timestamp, modified, value, user, reactions⟩

/-- Modelled from the spec: serialization of a `LogEntry`. -/
def LogEntry.to_storable : LogEntry → DVal
  | ⟨timestamp, key, explanation, previous_version, new_value, type,
     previous_value, user⟩ =>
      .obj [("timestamp", .str timestamp), ("key", putOpt DVal.str key),
            ("explanation", putOpt DVal.str explanation),
            ("previous_version", putOpt DVal.str previous_version),
            ("new_value", putOpt DVal.str new_value),
            ("type", putOpt DVal.str type),
            ("previous_value", putOpt DVal.str previous_value),
            ("user", .str user)]

/-- Modelled from the spec: parse a `LogEntry` from its stored document. -/
def LogEntry.from_stored (v : DVal) : Option LogEntry := do
  let o ← getObj v
  let timestamp ← getKey "timestamp" o >>= coerceStr
  let key ← getKey "key" o >>= getOpt coerceStr
  let explanation ← getKey "explanation" o >>= getOpt coerceStr
  let previous_version ← getKey "previous_version" o >>= getOpt coerceStr
  let new_value ← getKey "new_value" o >>= getOpt coerceStr
  let type ← getKey "type" o >>= getOpt coerceStr
  let previous_value ← getKey "previous_value" o >>= getOpt coerceStr
  let user ← getKey "user" o >>= coerceStr
  pure ⟨timestamp, key, explanation, previous_version, new_value, type,
        previous_value, user⟩

/-- Modelled from the spec: serialization of a `Header`. -/
def Header.to_storable : Header → DVal
  | ⟨threat, target, indicators, summary⟩ =>
      .obj [("threat", putOpt DVal.str threat),
            ("target", putOpt DVal.str target),
            ("indicators", putStrList indicators),
            ("summary", putOpt DVal.str summary)]

/-- Modelled from the spec: parse a `Header` from its stored document. -/
def Header.from_stored (v : DVal) : Option Header := do
  let o ← getObj v
  let threat ← getKey "threat" o >>= getOpt coerceStr
  let target ← getKey "target" o >>= getOpt coerceStr
  let indicators ← getKey "indicators" o >>= coerceStrList
  let summary ← getKey "summary" o >>= getOpt coerceStr
  pure ⟨threat, target, indicators, summary⟩

/-- Modelled from the spec: serialization of a `Label`. -/
def Label.to_storable : Label → DVal
  | ⟨assignments, generic, insight, mitigation, victim, campaign, threat,
     operation⟩ =>
      .obj [("assignments", putStrList assignments),
            ("generic", putStrList generic), ("insight", putStrList insight),
            ("mitigation", putStrList mitigation),
            ("victim", putStrList victim), ("campaign", putStrList campaign),
            ("threat", putStrList threat), ("operation", putStrList operation)]

/-- Modelled from the spec: parse a `Label` from its stored document. -/
def Label.from_stored (v : DVal) : Option Label := do
  let o ← getObj v
  let assignments ← getKey "assignments" o >>= coerceStrList
  let generic ← getKey "generic" o >>= coerceStrList
  let insight ← getKey "insight" o >>= coerceStrList
  let mitigation ← getKey "mitigation" o >>= coerceStrList
  let victim ← getKey "victim" o >>= coerceStrList
  let campaign ← getKey "campaign" o >>= coerceStrList
  let threat ← getKey "threat" o >>= coerceStrList
  let operation ← getKey "operation" o >>= coerceStrList
  pure ⟨assignments, generic, insight, mitigation, victim, campaign, threat,
        operation⟩

/-- Modelled from the spec: serialization of a `Votes`. -/
def Votes.to_storable : Votes → DVal
  | ⟨benign, obscure, malicious⟩ =>
      .obj [("benign", putStrList benign), ("obscure", putStrList obscure),
            ("malicious", putStrList malicious)]

/-- Modelled from the spec: parse a `Votes` from its stored document. -/
def Votes.from_stored (v : DVal) : Option Votes := do
  let o ← getObj v
  let benign ← getKey "benign" o >>= coerceStrList
  let obscure ← getKey "obscure" o >>= coerceStrList
  let malicious ← getKey "malicious" o >>= coerceStrList
  pure ⟨benign, obscure, malicious⟩

/-- Modelled from the spec: the stored field list of a Hit Record — one entry
per declared field, enum fields as canonical value strings, optionals as null
when absent. -/
def HowlerData.storedFields (r : HowlerData) : List (String × DVal) :=
  [("id", .str r.id), ("analytic", .str r.analytic),
        ("assignment", .str r.assignment),
        ("bundles", putStrList r.bundles), ("data", putStrList r.data),
        ("links", .list (r.links.map Link.to_storable)),
        ("detection", putOpt DVal.str r.detection), ("hash", .str r.hash),
        ("hits", putStrList r.hits), ("is_bundle", .bool r.is_bundle),
        ("related", putStrList r.related),
        ("reliability", putOpt DVal.num r.reliability),
        ("severity", putOpt DVal.num r.severity),
        ("volume", putOpt DVal.num r.volume),
        ("confidence", putOpt DVal.num r.confidence),
        ("score", .num r.score), ("status", .str r.status),
        ("scrutiny", .str r.scrutiny), ("escalation", .str r.escalation),
        ("assessment", putOpt DVal.str r.assessment),
        ("rationale", putOpt DVal.str r.rationale),
        ("comment", .list (r.comment.map Comment.to_storable)),
        ("log", .list (r.log.map LogEntry.to_storable)),
        ("retained", putOpt DVal.str r.retained),
        ("monitored", putOpt DVal.str r.monitored),
        ("reported", putOpt DVal.str r.reported),
        ("mitigated", putOpt DVal.str r.mitigated),
        ("outline", putOpt Header.to_storable r.outline),
        ("labels", r.labels.to_storable), ("votes", r.votes.to_storable),
        ("dossier", putOpt DVal.obj r.dossier),
        ("viewers", putStrList r.viewers)]

/-- Modelled from the spec: `to_storable_document` (§6) — serialize a Hit
Record to a nested key/value document. -/
def HowlerData.to_storable_document (r : HowlerData) : DVal :=
  .obj r.storedFields

/-- Parse the first quarter of a Hit Record's stored fields. -/
def HowlerData.parseA (o : List (String × DVal)) :
    Option (String × String × String × List String × List String ×
            List Link × Option String × String) := do
  let id ← getKey "id" o >>= coerceStr
  let analytic ← getKey "analytic" o >>= coerceStr
  let assignment ← getKey "assignment" o >>= coerceStr
  let bundles ← getKey "bundles" o >>= coerceStrList
  let data ← getKey "data" o >>= coerceStrList
  let links ← getKey "links" o >>= getList Link.from_stored
  let detection ← getKey "detection" o >>= getOpt coerceStr
  let hash ← getKey "hash" o >>= coerceStr
  pure (id, analytic, assignment, bundles, data, links, detection, hash)

/-- Parse the second quarter of a Hit Record's stored fields. -/
def HowlerData.parseB (o : List (String × DVal)) :
    Option (List String × Bool × List String × Option Int × Option Int ×
            Option Int × Option Int × Int) := do
  let hits ← getKey "hits" o >>= coerceStrList
  let is_bundle ← getKey "is_bundle" o >>= getBoolVal
  let related ← getKey "related" o >>= coerceStrList
  let reliability ← getKey "reliability" o >>= getOpt getNum
  let severity ← getKey "severity" o >>= getOpt getNum
  let volume ← getKey "volume" o >>= getOpt getNum
  let confidence ← getKey "confidence" o >>= getOpt getNum
  let score ← getKey "score" o >>= getNum
  pure (hits, is_bundle, related, reliability, severity, volume, confidence,
        score)

/-- Parse the third quarter of a Hit Record's stored fields. -/
def HowlerData.parseC (o : List (String × DVal)) :
    Option (String × String × String × Option String × Option String ×
            List Comment × List LogEntry × Option String) := do
  let status ← getKey "status" o >>= coerceStr
  let scrutiny ← getKey "scrutiny" o >>= coerceStr
  let escalation ← getKey "escalation" o >>= coerceStr
  let assessment ← getKey "assessment" o >>= getOpt coerceStr
  let rationale ← getKey "rationale" o >>= getOpt coerceStr
  let comment ← getKey "comment" o >>= getList Comment.from_stored
  let log ← getKey "log" o >>= getList LogEntry.from_stored
  let retained ← getKey "retained" o >>= getOpt coerceStr
  pure (status, scrutiny, escalation, assessment, rationale, comment, log,
        retained)

/-- Parse the fourth quarter of a Hit Record's stored fields. -/
def HowlerData.parseD (o : List (String × DVal)) :
    Option (Option String × Option String × Option String × Option Header ×
            Label × Votes × Option (List (String × DVal)) × List String) := do
  let monitored ← getKey "monitored" o >>= getOpt coerceStr
  let reported ← getKey "reported" o >>= getOpt coerceStr
  let mitigated ← getKey "mitigated" o >>= getOpt coerceStr
  let outline ← getKey "outline" o >>= getOpt Header.from_stored
  let labels ← getKey "labels" o >>= Label.from_stored
  let votes ← getKey "votes" o >>= Votes.from_stored
  let dossier ← getKey "dossier" o >>= getOpt getObj
  let viewers ← getKey "viewers" o >>= coerceStrList
  pure (monitored, reported, mitigated, outline, labels, votes, dossier,
        viewers)

/-- Modelled from the spec: `from_stored_document` (§6) — parse a Hit Record
back from a stored document, failing on any missing or ill-shaped field. -/
def HowlerData.from_stored_document (v : DVal) : Option HowlerData := do
  let o ← getObj v
  let (id, analytic, assignment, bundles, data, links, detection, hash) ←
    HowlerData.parseA o
  let (hits, is_bundle, related, reliability, severity, volume, confidence,
       score) ← HowlerData.parseB o
  let (status, scrutiny, escalation, assessment, rationale, comment, log,
       retained) ← HowlerData.parseC o
  let (monitored, reported, mitigated, outline, labels, votes, dossier,
       viewers) ← HowlerData.parseD o
  pure { id, analytic, assignment, bundles, data, links, detection, hash,
         hits, is_bundle, related, reliability, severity, volume, confidence,
         score, status, scrutiny, escalation, assessment, rationale, comment,
         log, retained, monitored, reported, mitigated, outline, labels,
         votes, dossier, viewers }

/-! ## Helper lemmas -/

theorem lookup_eq_none_of_not_mem (k : String) (d : Dict)
    (h : k ∉ keysOf d) : List.lookup k d = none := by
  induction d with
  | nil => rfl
  | cons p rest ih =>
      obtain ⟨k', v⟩ := p
      simp only [keysOf, List.map_cons, List.mem_cons, not_or] at h
      have hb : (k == k') = false := beq_eq_false_iff_ne.mpr h.1
      simp [List.lookup, hb, ih (by simpa [keysOf] using h.2)]

theorem coerceStrList_go_map (xs : List String) :
    coerceStrList.go (xs.map DVal.str) = some xs := by
  induction xs with
  | nil => rfl
  | cons x xs ih => simp [coerceStrList.go, coerceStr, ih]

theorem coerceStrList_putStrList (xs : List String) :
    coerceStrList (putStrList xs) = some xs := by
  simp [putStrList, coerceStrList, coerceStrList_go_map]

theorem getStrMap_go_map (m : List (String × String)) :
    getStrMap.go (m.map (fun p => (p.1, DVal.str p.2))) = some m := by
  induction m with
  | nil => rfl
  | cons p rest ih =>
      obtain ⟨k, s⟩ := p
      simp [getStrMap.go, coerceStr, ih]

theorem getStrMap_putStrMap (m : List (String × String)) :
    getStrMap (putStrMap m) = some m := by
  simp [putStrMap, getStrMap, getStrMap_go_map]

theorem parseAll_map (f : DVal → Option α) (g : α → DVal)
    (hfg : ∀ a, f (g a) = some a) (xs : List α) :
    parseAll f (xs.map g) = some xs := by
  induction xs with
  | nil => rfl
  | cons x xs ih => simp [parseAll, hfg x, ih]

theorem getOpt_putOpt (f : α → DVal) (g : DVal → Option α)
    (hfg : ∀ a, g (f a) = some a) (hnull : ∀ a, isNull (f a) = false) :
    ∀ x, getOpt g (putOpt f x) = some x
  | none => rfl
  | some a => by simp [putOpt, getOpt, hnull a, hfg a]

theorem getOptStr_roundtrip (x : Option String) :
    getOpt coerceStr (putOpt DVal.str x) = some x :=
  getOpt_putOpt DVal.str coerceStr (fun _ => rfl) (fun _ => rfl) x

theorem getOptNum_roundtrip (x : Option Int) :
    getOpt getNum (putOpt DVal.num x) = some x :=
  getOpt_putOpt DVal.num getNum (fun _ => rfl) (fun _ => rfl) x

theorem getOptObj_roundtrip (x : Option (List (String × DVal))) :
    getOpt getObj (putOpt DVal.obj x) = some x :=
  getOpt_putOpt DVal.obj getObj (fun _ => rfl) (fun _ => rfl) x

theorem link_roundtrip (l : Link) :
    Link.from_stored (Link.to_storable l) = some l := by
  cases l with
  | mk href title icon =>
      simp [Link.to_storable, Link.from_stored, getObj, getKey,
            getOptStr_roundtrip, coerceStr]

theorem comment_roundtrip (c : Comment) :
    Comment.from_stored (Comment.to_storable c) = some c := by
  cases c with
  | mk id timestamp modified value user reactions =>
      simp [Comment.to_storable, Comment.from_stored, getObj, getKey,
            coerceStr, getStrMap_putStrMap]

theorem logEntry_roundtrip (e : LogEntry) :
    LogEntry.from_stored (LogEntry.to_storable e) = some e := by
  cases e with
  | mk timestamp key explanation previous_version new_value type
      previous_value user =>
      simp [LogEntry.to_storable, LogEntry.from_stored, getObj, getKey,
            coerceStr, getOptStr_roundtrip]

theorem header_roundtrip (h : Header) :
    Header.from_stored (Header.to_storable h) = some h := by
  cases h with
  | mk threat target indicators summary =>
      simp [Header.to_storable, Header.from_stored, getObj, getKey,
            coerceStrList_putStrList, getOptStr_roundtrip]

theorem getOptHeader_roundtrip (x : Option Header) :
    getOpt Header.from_stored (putOpt Header.to_storable x) = some x :=
  getOpt_putOpt Header.to_storable Header.from_stored header_roundtrip
    (fun h => by cases h; rfl) x

theorem label_roundtrip (l : Label) :
    Label.from_stored (Label.to_storable l) = some l := by
  cases l with
  | mk assignments generic insight mitigation victim campaign threat
      operation =>
      simp [Label.to_storable, Label.from_stored, getObj, getKey,
            coerceStrList_putStrList]

theorem votes_roundtrip (v : Votes) :
    Votes.from_stored (Votes.to_storable v) = some v := by
  cases v with
  | mk benign obscure malicious =>
      simp [Votes.to_storable, Votes.from_stored, getObj, getKey,
            coerceStrList_putStrList]

theorem parseA_stored (r : HowlerData) :
    HowlerData.parseA r.storedFields =
      some (r.id, r.analytic, r.assignment, r.bundles, r.data, r.links,
            r.detection, r.hash) := by
  simp [HowlerData.parseA, HowlerData.storedFields, getKey, coerceStr,
        getList, coerceStrList_putStrList, getOptStr_roundtrip,
        parseAll_map Link.from_stored Link.to_storable link_roundtrip]

theorem parseB_stored (r : HowlerData) :
    HowlerData.parseB r.storedFields =
      some (r.hits, r.is_bundle, r.related, r.reliability, r.severity,
            r.volume, r.confidence, r.score) := by
  simp [HowlerData.parseB, HowlerData.storedFields, getKey, getNum,
        getBoolVal, coerceStrList_putStrList, getOptNum_roundtrip]

theorem parseC_stored (r : HowlerData) :
    HowlerData.parseC r.storedFields =
      some (r.status, r.scrutiny, r.escalation, r.assessment, r.rationale,
            r.comment, r.log, r.retained) := by
  simp [HowlerData.parseC, HowlerData.storedFields, getKey, coerceStr,
        getList, getOptStr_roundtrip,
        parseAll_map Comment.from_stored Comment.to_storable comment_roundtrip,
        parseAll_map LogEntry.from_stored LogEntry.to_storable
          logEntry_roundtrip]

theorem parseD_stored (r : HowlerData) :
    HowlerData.parseD r.storedFields =
      some (r.monitored, r.reported, r.mitigated, r.outline, r.labels,
            r.votes, r.dossier, r.viewers) := by
  simp [HowlerData.parseD, HowlerData.storedFields, getKey, coerceStr,
        coerceStrList_putStrList, getOptStr_roundtrip, getOptObj_roundtrip,
        getOptHeader_roundtrip, label_roundtrip, votes_roundtrip]

/-! ## Claims -/

/-- C6: serializing a validly constructed Hit Record with
`to_storable_document` and deserializing with `from_stored_document` yields
the record again, field for field, including the nested Comment list, Log
list, Label and Votes. -/
theorem C6_round_trip (r : HowlerData) :
    HowlerData.from_stored_document (HowlerData.to_storable_document r) =
      some r := by
  simp [HowlerData.to_storable_document, HowlerData.from_stored_document,
        getObj, parseA_stored, parseB_stored, parseC_stored, parseD_stored]

/-- C1: with an `"explanation"` key the log-entry rule never fails; without
one, `Log.__init__` raises the validation error exactly when
`{key, new_value, type, previous_value}` is not entirely contained in the
mapping's keys — partial presence fails like none. -/
theorem C1_log_entry_rule (d : Dict) :
    ((keysOf d).contains "explanation" = true → logInit (some d) = .ok) ∧
    ((keysOf d).contains "explanation" = false →
      (logInit (some d) = .invalidLogEntry required_keys ↔
        ¬ required_keys ⊆ (keysOf d).toFinset)) := by
  constructor
  · intro h
    simp only [logInit, if_pos h]
  · intro h
    have h1 : ¬ ((keysOf d).contains "explanation" = true) := by rw [h]; simp
    simp only [logInit, if_neg h1]
    by_cases hs : required_keys ⊆ (keysOf d).toFinset
    · have hc : ¬ (required_keys ∩ (keysOf d).toFinset ≠ required_keys) := by
        simp [Finset.inter_eq_left.mpr hs]
      simp [if_neg hc, hs]
    · have hne : required_keys ∩ (keysOf d).toFinset ≠ required_keys := by
        rw [Ne, Finset.inter_eq_left]; exact hs
      simp [if_pos hne, hs]

/-- Witness for C1: three of the four structured fields present (missing
`previous_value`), no explanation — fails the rule. -/
theorem C1_log_entry_rule_witness :
    logInit (some [("key", DVal.str "status"), ("new_value", DVal.str "open"),
      ("type", DVal.str "set"), ("user", DVal.str "u"),
      ("timestamp", DVal.str "t")]) = .invalidLogEntry required_keys :=
  ((C1_log_entry_rule [("key", DVal.str "status"),
      ("new_value", DVal.str "open"), ("type", DVal.str "set"),
      ("user", DVal.str "u"), ("timestamp", DVal.str "t")]).2
    (by decide)).mpr (by decide)

/-- C2 counterexample: the claimed equivalence fails twice over. Spaces are
not normalized — `HowlerEnumMeta.__contains__` maps only hyphens, so on
`HitStatus` the token `"in progress"` is rejected though the claim accepts
it. And membership iterates `self`, which excludes enum aliases, so on
`AssessmentEscalationMap` the alias member name `"COMPROMISE"` is rejected
though the claim (quantifying over every member) accepts it. -/
theorem C2_counterexample :
    ¬ (enumContains HitStatus "in progress" = true ↔
        (specNormName "in progress" ∈ HitStatus.members.map Prod.fst ∨
         "in progress" ∈ HitStatus.members.map Prod.snd)) ∧
    ¬ (enumContains AssessmentEscalationMap "COMPROMISE" = true ↔
        (specNormName "COMPROMISE" ∈
           AssessmentEscalationMap.members.map Prod.fst ∨
         "COMPROMISE" ∈ AssessmentEscalationMap.members.map Prod.snd)) := by
  decide

/-- C2 amended: membership normalizes case and hyphens (not spaces) and
consults only the canonical (non-alias) members, the ones Python enum
iteration yields: for every schema enumeration, `contains(token)` is true iff
the token uppercased with hyphens mapped to underscores is a canonical
member's name or the token itself is a canonical member's value; every
canonical member's value and name are accepted. -/
theorem C2_contains_amended (E : PyEnumSpec) (hE : E ∈ schemaEnums) :
    (∀ m ∈ canonicalMembers E,
      enumContains E m.2 = true ∧ enumContains E m.1 = true) ∧
    (∀ t : String, enumContains E t = true ↔
      (normName t ∈ (canonicalMembers E).map Prod.fst ∨
       t ∈ (canonicalMembers E).map Prod.snd)) := by
  constructor
  · have H : ∀ E ∈ schemaEnums, ∀ m ∈ canonicalMembers E,
        enumContains E m.2 = true ∧ enumContains E m.1 = true := by decide
    exact H E hE
  · intro t
    simp [enumContains, List.contains]

/-- Witness for C2 amended: the member name `ON_HOLD` is accepted for
`HitStatus` in hyphenated lowercase form. -/
theorem C2_contains_amended_witness :
    enumContains HitStatus "on-hold" = true :=
  ((C2_contains_amended HitStatus (by decide)).2 "on-hold").mpr
    (Or.inl (by decide))

/-- C3: the assessment-to-escalation table is total — every one of the ten
Assessment members maps to exactly one of the four Escalation members, with
`ambiguous ↦ miss`, `attempt ↦ evidence`, `compromise ↦ evidence`,
`trivial ↦ evidence`. -/
theorem C3_escalation_map_total :
    (∀ p ∈ Assessment.members,
      ∃ e ∈ enumList Escalation, escalation_for p.1 = some e) ∧
    Assessment.members.length = 10 ∧
    (enumList Escalation).length = 4 ∧
    escalation_for "ambiguous" = some "miss" ∧
    escalation_for "attempt" = some "evidence" ∧
    escalation_for "compromise" = some "evidence" ∧
    escalation_for "trivial" = some "evidence" := by decide

/-- C4: a Hit Record built without a `labels` key gets a Label with all
eight category keys empty, although the declared default seeds only
`assignments` and `generic`. -/
theorem C4_labels_default (d : Dict) (h : "labels" ∉ keysOf d) :
    howlerLabels d = .ok ⟨[], [], [], [], [], [], [], []⟩ ∧
    keysOf DEFAULT_LABELS = ["assignments", "generic"] := by
  refine ⟨?_, by decide⟩
  simp [howlerLabels, lookup_eq_none_of_not_mem _ _ h]
  decide

/-- Witness for C4 at the empty raw input. -/
theorem C4_labels_default_witness :
    howlerLabels [] = .ok ⟨[], [], [], [], [], [], [], []⟩ ∧
    keysOf DEFAULT_LABELS = ["assignments", "generic"] :=
  C4_labels_default [] (by decide)

/-- C5: a Hit Record built without a `votes` key gets a Votes instance
with exactly one empty list per Vote member — the three keys `malicious`,
`obscure`, `benign` — and the default key set is computed from the Vote
enumeration's members (`keysOf DEFAULT_VOTES = enumList Vote`). -/
theorem C5_votes_default (d : Dict) (h : "votes" ∉ keysOf d) :
    howlerVotes d = .ok ⟨[], [], []⟩ ∧
    keysOf DEFAULT_VOTES = enumList Vote ∧
    enumList Vote = ["malicious", "obscure", "benign"] := by
  refine ⟨?_, by decide, by decide⟩
  simp [howlerVotes, lookup_eq_none_of_not_mem _ _ h]
  decide

/-- Witness for C5 at the empty raw input. -/
theorem C5_votes_default_witness :
    howlerVotes [] = .ok ⟨[], [], []⟩ ∧
    keysOf DEFAULT_VOTES = enumList Vote ∧
    enumList Vote = ["malicious", "obscure", "benign"] :=
  C5_votes_default [] (by decide)

/-- C7 counterexample: on an input missing only `previous_value`, the
raised error names all four required fields — including `key`, `new_value` and
`type`, which were supplied — not just the missing one. -/
theorem C7_counterexample :
    logInit (some [("key", DVal.str "status"), ("new_value", DVal.str "open"),
      ("type", DVal.str "set"), ("user", DVal.str "u"),
      ("timestamp", DVal.str "t")]) = .invalidLogEntry required_keys ∧
    "key" ∈ required_keys ∧
    "key" ∈ keysOf [("key", DVal.str "status"), ("new_value", DVal.str "open"),
      ("type", DVal.str "set"), ("user", DVal.str "u"),
      ("timestamp", DVal.str "t")] ∧
    required_keys ≠ {"previous_value"} := by decide

/-- C7 amended: whenever the log-entry rule fails, the error identifies
the full required set `{key, new_value, type, previous_value}`, regardless of
which of those fields are missing. -/
theorem C7_error_names_all_required (d : Dict)
    (h : (keysOf d).contains "explanation" = false)
    (hs : ¬ required_keys ⊆ (keysOf d).toFinset) :
    logInit (some d) = .invalidLogEntry required_keys := by
  have hne : required_keys ∩ (keysOf d).toFinset ≠ required_keys := by
    rw [Ne, Finset.inter_eq_left]; exact hs
  have h1 : ¬ ((keysOf d).contains "explanation" = true) := by rw [h]; simp
  simp only [logInit, if_neg h1, if_pos hne]

/-- Witness for C7 amended: no structured fields at all. -/
theorem C7_error_names_all_required_witness :
    logInit (some [("user", DVal.str "u"), ("timestamp", DVal.str "t")]) =
      .invalidLogEntry required_keys :=
  C7_error_names_all_required [("user", DVal.str "u"),
    ("timestamp", DVal.str "t")] (by decide) (by decide)

/-- C8: duplicate right-hand values make the escalation table collapse
into aliases — its canonical members are exactly `AMBIGUOUS ↦ "miss"` and
`ATTEMPT ↦ "evidence"`, iteration yields only `["miss", "evidence"]`, and the
aliased name `COMPROMISE` resolves to the canonical member `ATTEMPT` (whose
value is still the correct escalation `"evidence"`). -/
theorem C8_escalation_map_aliases :
    canonicalMembers AssessmentEscalationMap =
      [("AMBIGUOUS", "miss"), ("ATTEMPT", "evidence")] ∧
    enumList AssessmentEscalationMap = ["miss", "evidence"] ∧
    enumGetitem AssessmentEscalationMap "COMPROMISE" =
      some ("ATTEMPT", "evidence") ∧
    memberValue Escalation "EVIDENCE" = "evidence" := by decide

/-- C9: `contains` and `lookup` disagree on Vote's misspelled member:
`contains "benign"` is true (value match) while lookup fails because the
normalization `"BENIGN"` matches no member name (`BEINIGN`); lookup of a
member's value succeeds precisely when the value's normalization coincides
with the member's name. -/
theorem C9_contains_lookup_disagree :
    enumContains Vote "benign" = true ∧
    enumGetitem Vote "benign" = none ∧
    normName "benign" = "BENIGN" ∧
    (Vote.members.map Prod.fst).contains "BENIGN" = false ∧
    (∀ p ∈ Vote.members,
      (enumGetitem Vote p.2).isSome = (normName p.2 == p.1)) := by decide

/-- C10: the log-entry constructor is total over mappings only — invoking
it without a data argument hits a type error on the membership test, before
any validation; `invalidLogEntry` is reachable only when data is a mapping. -/
theorem C10_requires_mapping (data : Option Dict) (fs : Finset String)
    (h : logInit data = .invalidLogEntry fs) :
    logInit none = .typeError ∧ data.isSome = true := by
  refine ⟨rfl, ?_⟩
  cases data with
  | none => simp [logInit] at h
  | some d => rfl

/-- Witness for C10 at a mapping with no explanation and no structured
fields. -/
theorem C10_requires_mapping_witness :
    logInit none = .typeError ∧
    (some ([("user", DVal.str "u")] : Dict)).isSome = true :=
  C10_requires_mapping (some [("user", DVal.str "u")]) required_keys
    (by decide)

end Howler
